import Mathlib

/-!
Verification of the Personal Library Manager (`src/library_manager.py`).

The development shallowly embeds the program:

* JSON values are the inductive `JVal`; a file's content is modelled up to
  JSON-parse equivalence by `Content`: `Content.parsable j` stands for any
  text that `json.load` parses to the value `j`, and `Content.malformed`
  for text on which `json.load` raises `JSONDecodeError`.  `json.dump` of a
  Python value `v` (with `ensure_ascii=False`) produces text that
  `json.load` parses back to `v`, so writing the library serializes to
  `Content.parsable (JVal.arr books)`.
* The file system is the pair `FS` of the primary file `library.json` and
  the backup file `library_backup.json`; `none` means the file is absent.
* I/O failures are injected through explicit fault flags (`SaveFaults`,
  `LoadFaults`); a Python exception is `PyResult.exc`, and `try/except`
  blocks are translated by `attempt`.  State survives an exception, as in
  Python, so the monad is state-passing with an error-carrying result.
* `print` calls are recorded as `Event`s in a log.
-/

/-- A JSON value, as produced by Python's `json.load`. -/
inductive JVal where
  | null
  | bool (b : Bool)
  | int (n : Int)
  | str (s : String)
  | arr (elems : List JVal)
  | obj (fields : List (String × JVal))

/-- The content of an on-disk file, up to JSON-parse equivalence:
`parsable j` is any text that `json.load` parses to `j`, `malformed` is
text that makes `json.load` raise `JSONDecodeError`. -/
inductive Content where
  | parsable (j : JVal)
  | malformed

/-- The two files the persistence layer touches: `library.json` (primary)
and `library_backup.json` (backup).  `none` models an absent file. -/
structure FS where
  primary : Option Content
  backup : Option Content

/-- Messages printed by the program, one constructor per `print` site of
the persistence and record-store routines. -/
inductive Event where
  | backupWarning
  | savedOk
  | saveError
  | recovered
  | recoveryError
  | loadedPrimary (n : Nat)
  | corruptPrimary
  | loadErrorPrimary
  | invalidFormatPrimary
  | loadedBackup (n : Nat)
  | loadErrorBackup
  | invalidFormatBackup
  | startingEmpty
  | emptyLib
  | removed (title : String)
  | notFound (title : String)
  | foundBooks
  | noMatches (term : String)
  deriving DecidableEq, Repr

/-- Fault injection for `save_library`: which of its three file operations
raise an OS exception. -/
structure SaveFaults where
  backupCopyFails : Bool
  primaryWriteFails : Bool
  recoveryCopyFails : Bool
  deriving DecidableEq, Repr

/-- The fault-free save scenario. -/
def noSaveFaults : SaveFaults := ⟨false, false, false⟩

/-- Fault injection for `load_library`: which of its two file reads raise
an OS exception. -/
structure LoadFaults where
  primaryReadFails : Bool
  backupReadFails : Bool
  deriving DecidableEq, Repr

/-- The fault-free load scenario. -/
def noLoadFaults : LoadFaults := ⟨false, false⟩

/-- State carried through `save_library`: the file system and the log of
printed messages. -/
structure SaveSt where
  fs : FS
  log : List Event

/-- Result of a Python statement: normal completion or a raised exception.
The state is kept in both cases — in Python, mutations made before a
`raise` survive it. -/
inductive PyResult (α : Type) where
  | ok (a : α) (s : SaveSt)
  | exc (msg : String) (s : SaveSt)

/-- True when no exception escaped. -/
def PyResult.isOk {α : Type} : PyResult α → Bool
  | .ok _ _ => true
  | .exc _ _ => false

/-- State-passing computation that can raise a Python exception. -/
def SaveM (α : Type) : Type := SaveSt → PyResult α

def SaveM.pure {α : Type} (a : α) : SaveM α := fun s => .ok a s

def SaveM.bind {α β : Type} (m : SaveM α) (f : α → SaveM β) : SaveM β := fun s =>
  match m s with
  | .ok a s' => f a s'
  | .exc e s' => .exc e s'

instance : Monad SaveM where
  pure := SaveM.pure
  bind := SaveM.bind

/-- Translation of `try: m except Exception: h` — the handler receives the
exception's message and the state as mutated so far. -/
def attempt {α : Type} (m : SaveM α) (h : String → SaveM α) : SaveM α := fun s =>
  match m s with
  | .ok a s' => .ok a s'
  | .exc e s' => h e s'

/-- Record a `print` call. -/
def emit (e : Event) : SaveM Unit := fun s => .ok () { s with log := s.log ++ [e] }

/-- Read the current file-system state. -/
def getSt : SaveM SaveSt := fun s => .ok s s

/-- Model of `json.dump(books, f, indent=4, ensure_ascii=False)`: writes text that
parses back to the array of the library's records. -/
def serialize (books : List JVal) : Content := .parsable (.arr books)

/-- Model of `open(filename) / open(backup_filename, 'w') / dst.write(src.read())`:
copy the primary file's bytes to the backup file.  A missing source or an
injected fault raises; a fault is modelled as raising before the
destination is written (e.g. the `open` itself fails). -/
def copyPrimaryToBackup (fails : Bool) : SaveM Unit := fun s =>
  match s.fs.primary with
  | none => .exc "FileNotFoundError" s
  | some c =>
      if fails then .exc "OSError" s
      else .ok () { s with fs := { s.fs with backup := some c } }

/-- Model of `open(filename, 'w')` followed by `json.dump`: replace the primary file with the
serialized library.  On an injected fault the file is left truncated /
partially written, i.e. with malformed content, and the exception
propagates. -/
def writePrimary (books : List JVal) (fails : Bool) : SaveM Unit := fun s =>
  if fails then .exc "OSError" { s with fs := { s.fs with primary := some .malformed } }
  else .ok () { s with fs := { s.fs with primary := some (serialize books) } }

/-- Copy the backup file's bytes back over the primary file (the recovery
step of `save_library`). -/
def copyBackupToPrimary (fails : Bool) : SaveM Unit := fun s =>
  match s.fs.backup with
  | none => .exc "FileNotFoundError" s
  | some c =>
      if fails then .exc "OSError" s
      else .ok () { s with fs := { s.fs with primary := some c } }

/-- Translation of `LibraryManager.save_library` (src/library_manager.py:143-172), with
`self.books = books` and fault injection `f`. -/
def save_library (books : List JVal) (f : SaveFaults) : SaveM Unit :=
  attempt
    (do
      let s ← getSt
      if s.fs.primary.isSome then
        attempt (copyPrimaryToBackup f.backupCopyFails) (fun _ => emit .backupWarning)
      writePrimary books f.primaryWriteFails
      emit .savedOk)
    (fun _ => do
      emit .saveError
      let s ← getSt
      if s.fs.backup.isSome then
        attempt
          (do
            copyBackupToPrimary f.recoveryCopyFails
            emit .recovered)
          (fun _ => emit .recoveryError))

/-- Run `save_library` on a file system with an empty log and return the
final file system and the printed messages. -/
def runSave (books : List JVal) (f : SaveFaults) (fs : FS) : FS × List Event :=
  match save_library books f { fs := fs, log := [] } with
  | .ok _ s => (s.fs, s.log)
  | .exc _ s => (s.fs, s.log)

/-- Translation of `LibraryManager.load_library` (src/library_manager.py:174-217): try the
primary file, then the backup, then fall back to an empty library.
Returns the adopted `self.books` and the printed messages. -/
def load_library (fs : FS) (f : LoadFaults) : List JVal × List Event :=
  let att1 : Option (List JVal) × List Event :=
    match fs.primary with
    | none => (none, [])
    | some c =>
        if f.primaryReadFails then (none, [.loadErrorPrimary])
        else
          match c with
          | .malformed => (none, [.corruptPrimary])
          | .parsable (.arr xs) => (some xs, [.loadedPrimary xs.length])
          | .parsable _ => (none, [.invalidFormatPrimary])
  match att1 with
  | (some xs, ev) => (xs, ev)
  | (none, ev) =>
      match fs.backup with
      | none => ([], ev ++ [.startingEmpty])
      | some c =>
          if f.backupReadFails then ([], ev ++ [.loadErrorBackup, .startingEmpty])
          else
            match c with
            | .malformed => ([], ev ++ [.loadErrorBackup, .startingEmpty])
            | .parsable (.arr xs) => (xs, ev ++ [.loadedBackup xs.length])
            | .parsable _ => ([], ev ++ [.invalidFormatBackup, .startingEmpty])

/-- A load attempt on one file succeeds exactly when the file exists, the
read does not fault, and the content parses to a JSON array; it then
adopts the array's elements.  This is the spec's description of each of
`load`'s two attempts. -/
def adoptable : Option Content → Bool → Option (List JVal)
  | some (.parsable (.arr xs)), false => some xs
  | _, _ => none

/-- The spec's description of `load` as a whole: primary attempt, else
backup attempt, else the empty library. -/
def loadSpec (fs : FS) (f : LoadFaults) : List JVal :=
  match adoptable fs.primary f.primaryReadFails with
  | some xs => xs
  | none => (adoptable fs.backup f.backupReadFails).getD []

/-- The backup file's content after step 1 of `save_library` (the
best-effort copy of the primary over the backup). -/
def backupAfterStep1 (fs : FS) (f : SaveFaults) : Option Content :=
  match fs.primary with
  | some c => if f.backupCopyFails then fs.backup else some c
  | none => fs.backup

/-- C1: after `save(L1)` followed by `save(L2)`, with `save(L1)`'s write of
the primary succeeding and `save(L2)` running fault-free, the backup file's
content is the serialized form of `L1` and the primary file's content is
the serialized form of `L2`. -/
theorem backup_invariant (L1 L2 : List JVal) (fs : FS) (f1 : SaveFaults)
    (h : f1.primaryWriteFails = false) :
    (runSave L2 noSaveFaults (runSave L1 f1 fs).1).1.backup = some (serialize L1) ∧
    (runSave L2 noSaveFaults (runSave L1 f1 fs).1).1.primary = some (serialize L2) := by
  obtain ⟨bc, pw, rc⟩ := f1
  obtain ⟨p, b⟩ := fs
  cases h
  cases bc <;> cases rc <;> cases p <;> cases b <;> exact ⟨rfl, rfl⟩

/-- Witness for C1 at two concrete libraries on an initially empty file
system. -/
theorem backup_invariant_witness :
    (runSave [JVal.int 2] noSaveFaults
        (runSave [JVal.int 1] noSaveFaults ⟨none, none⟩).1).1.backup =
      some (serialize [JVal.int 1]) ∧
    (runSave [JVal.int 2] noSaveFaults
        (runSave [JVal.int 1] noSaveFaults ⟨none, none⟩).1).1.primary =
      some (serialize [JVal.int 2]) :=
  backup_invariant [JVal.int 1] [JVal.int 2] ⟨none, none⟩ noSaveFaults rfl

/-- C2: saving a library and then loading yields the same ordered sequence
of records, whatever the starting file system. -/
theorem save_load_round_trip (books : List JVal) (fs : FS) :
    (load_library (runSave books noSaveFaults fs).1 noLoadFaults).1 = books := by
  obtain ⟨p, b⟩ := fs
  cases p <;> cases b <;> rfl

/-- C3: `load` adopts the primary file's content exactly when it exists,
is readable and parses to an array; otherwise it tries the backup the same
way; otherwise it yields the empty library.  In particular an unreadable,
malformed or non-array primary together with a valid backup array yields
the backup's content. -/
theorem load_fallback (fs : FS) (f : LoadFaults) :
    (load_library fs f).1 = loadSpec fs f ∧
    (∀ ys, adoptable fs.primary f.primaryReadFails = none →
      adoptable fs.backup f.backupReadFails = some ys → (load_library fs f).1 = ys) := by
  obtain ⟨p, b⟩ := fs
  obtain ⟨fp, fb⟩ := f
  have heq : (load_library ⟨p, b⟩ ⟨fp, fb⟩).1 = loadSpec ⟨p, b⟩ ⟨fp, fb⟩ := by
    rcases p with _ | (j1 | _) <;> rcases b with _ | (j2 | _) <;> cases fp <;> cases fb
    all_goals try cases j1
    all_goals try cases j2
    all_goals rfl
  refine ⟨heq, fun ys h1 h2 => ?_⟩
  rw [heq]
  simp [loadSpec, h1, h2]

/-- Witness for C3: a malformed primary with a valid backup array loads
the backup's content. -/
theorem load_fallback_witness :
    (load_library ⟨some Content.malformed, some (Content.parsable (JVal.arr [JVal.int 1]))⟩
        noLoadFaults).1 = [JVal.int 1] :=
  (load_fallback ⟨some Content.malformed, some (Content.parsable (JVal.arr [JVal.int 1]))⟩
    noLoadFaults).2 [JVal.int 1] rfl rfl

/-- C4: `save_library` never lets an exception escape, for any library and
any combination of file-system faults; a failing backup copy only prints a
warning and the primary is still written; a failing primary write prints
the save error. -/
theorem save_never_raises (books : List JVal) (f : SaveFaults) (st : SaveSt) :
    (save_library books f st).isOk = true ∧
    (f.backupCopyFails = true → f.primaryWriteFails = false → st.fs.primary.isSome = true →
      (runSave books f st.fs).2 = [Event.backupWarning, Event.savedOk] ∧
      (runSave books f st.fs).1.primary = some (serialize books)) ∧
    (f.primaryWriteFails = true → Event.saveError ∈ (runSave books f st.fs).2) ∧
    (f.primaryWriteFails = true → f.recoveryCopyFails = true →
      backupAfterStep1 st.fs f ≠ none →
      Event.recoveryError ∈ (runSave books f st.fs).2) := by
  obtain ⟨⟨p, b⟩, log⟩ := st
  obtain ⟨bc, pw, rc⟩ := f
  cases bc <;> cases pw <;> cases rc <;> cases p <;> cases b <;>
    refine ⟨rfl, fun h1 h2 h3 => ?_, fun h4 => ?_, fun h5 h6 h7 => ?_⟩ <;>
    first
      | exact Bool.noConfusion h1
      | exact Bool.noConfusion h2
      | exact Bool.noConfusion h3
      | exact Bool.noConfusion h4
      | exact Bool.noConfusion h5
      | exact Bool.noConfusion h6
      | exact absurd rfl h7
      | exact ⟨rfl, rfl⟩
      | exact List.Mem.head _
      | exact List.Mem.tail _ (List.Mem.head _)
      | exact List.Mem.tail _ (List.Mem.tail _ (List.Mem.head _))

/-- Witness for C4: all three faults at once on a populated file system
still complete without an exception, the failing write is reported, and
the failing recovery copy is reported. -/
theorem save_never_raises_witness :
    (save_library [] ⟨true, true, true⟩
        ⟨⟨some Content.malformed, some Content.malformed⟩, []⟩).isOk = true ∧
    Event.saveError ∈
      (runSave [] ⟨true, true, true⟩ ⟨some Content.malformed, some Content.malformed⟩).2 ∧
    Event.recoveryError ∈
      (runSave [] ⟨true, true, true⟩ ⟨some Content.malformed, some Content.malformed⟩).2 :=
  ⟨(save_never_raises [] ⟨true, true, true⟩
      ⟨⟨some Content.malformed, some Content.malformed⟩, []⟩).1,
   (save_never_raises [] ⟨true, true, true⟩
      ⟨⟨some Content.malformed, some Content.malformed⟩, []⟩).2.2.1 rfl,
   (save_never_raises [] ⟨true, true, true⟩
      ⟨⟨some Content.malformed, some Content.malformed⟩, []⟩).2.2.2 rfl rfl
     (fun h => Option.noConfusion h)⟩

/-- C5 counterexample: when the primary write fails but no backup file
exists, `save_library` reports only the save error — no recovery is
attempted and no recovery success/failure is reported, contrary to the
claim's unconditional recovery report. -/
theorem save_recovery_counterexample :
    (runSave [] ⟨false, true, false⟩ ⟨none, none⟩).2 = [Event.saveError] ∧
    Event.recovered ∉ (runSave [] ⟨false, true, false⟩ ⟨none, none⟩).2 ∧
    Event.recoveryError ∉ (runSave [] ⟨false, true, false⟩ ⟨none, none⟩).2 := by
  decide

/-- C5 amended: if the primary write fails, the error is reported; then,
if a backup file exists (after step 1), recovery copies it over the
primary and is reported as succeeded or failed; if no backup exists, no
recovery happens and only the error (and possibly the earlier backup
warning) is printed. -/
theorem save_recovery (books : List JVal) (fs : FS) (f : SaveFaults)
    (h : f.primaryWriteFails = true) :
    Event.saveError ∈ (runSave books f fs).2 ∧
    (∀ c, backupAfterStep1 fs f = some c →
      (f.recoveryCopyFails = false →
        (runSave books f fs).1.primary = some c ∧
        Event.recovered ∈ (runSave books f fs).2) ∧
      (f.recoveryCopyFails = true → Event.recoveryError ∈ (runSave books f fs).2)) ∧
    (backupAfterStep1 fs f = none →
      (runSave books f fs).2 = [Event.saveError] ∨
      (runSave books f fs).2 = [Event.backupWarning, Event.saveError]) := by
  obtain ⟨bc, pw, rc⟩ := f
  obtain ⟨p, b⟩ := fs
  cases h
  cases bc <;> cases rc <;> cases p <;> cases b <;>
    refine ⟨?_, fun c hc => ⟨fun hrc => ?_, fun hrc => ?_⟩, fun hn => ?_⟩ <;>
    first
      | exact Bool.noConfusion hrc
      | exact Option.noConfusion hc
      | exact Option.noConfusion hn
      | exact List.Mem.head _
      | exact List.Mem.tail _ (List.Mem.head _)
      | exact Or.inl rfl
      | exact Or.inr rfl
      | (injection hc with hc'; subst hc';
         exact ⟨rfl, List.Mem.tail _ (List.Mem.head _)⟩)
      | (injection hc with hc'; subst hc';
         exact ⟨rfl, List.Mem.tail _ (List.Mem.tail _ (List.Mem.head _))⟩)
      | exact List.Mem.tail _ (List.Mem.tail _ (List.Mem.head _))

/-- Witness for C5 amended: failing primary write with an existing backup
recovers the backup's bytes over the primary and reports it. -/
theorem save_recovery_witness :
    Event.saveError ∈ (runSave [] ⟨false, true, false⟩ ⟨none, some Content.malformed⟩).2 ∧
    (∀ c, backupAfterStep1 ⟨none, some Content.malformed⟩ ⟨false, true, false⟩ = some c →
      ((false : Bool) = false →
        (runSave [] ⟨false, true, false⟩ ⟨none, some Content.malformed⟩).1.primary = some c ∧
        Event.recovered ∈ (runSave [] ⟨false, true, false⟩ ⟨none, some Content.malformed⟩).2) ∧
      ((false : Bool) = true →
        Event.recoveryError ∈ (runSave [] ⟨false, true, false⟩ ⟨none, some Content.malformed⟩).2)) ∧
    (backupAfterStep1 ⟨none, some Content.malformed⟩ ⟨false, true, false⟩ = none →
      (runSave [] ⟨false, true, false⟩ ⟨none, some Content.malformed⟩).2 = [Event.saveError] ∨
      (runSave [] ⟨false, true, false⟩ ⟨none, some Content.malformed⟩).2 =
        [Event.backupWarning, Event.saveError]) :=
  save_recovery [] ⟨none, some Content.malformed⟩ ⟨false, true, false⟩ rfl

/-- C10: `load` adopts any successfully parsed JSON array as the library
with no per-record validation — the result is exactly the array's
elements, for every element list, including non-object elements. -/
theorem load_no_validation (xs : List JVal) (b : Option Content) :
    (load_library ⟨some (.parsable (.arr xs)), b⟩ noLoadFaults).1 = xs ∧
    (load_library ⟨some (.parsable (.arr [JVal.int 3, JVal.null, JVal.str "x"])), none⟩
        noLoadFaults).1 = [JVal.int 3, JVal.null, JVal.str "x"] :=
  ⟨rfl, rfl⟩

/-!
Record-store operations.  A well-formed book record (the dictionaries
built by `add_book`) is the structure `Book`; the record-store claims
quantify over libraries of such records, on which the dictionary accesses
`book["title"]` etc. are defined.
-/

/-- A book record: the dictionary built by `add_book`, with its five keys
in source order. -/
structure Book where
  title : String
  author : String
  year : Int
  genre : String
  read : Bool
  deriving DecidableEq, Repr

/-- Python's `str.lower()` (character-wise lowering; on the ASCII range
this is exactly `Char.toLower`). -/
def pyLower (s : String) : String := ⟨s.data.map Char.toLower⟩

/-- Truth of `takeEq needle hay`: `needle` is an initial segment of
`hay`. -/
def takeEq : List Char → List Char → Bool
  | [], _ => true
  | _ :: _, [] => false
  | a :: as, b :: bs => a = b && takeEq as bs

/-- Truth of `subSeq needle hay`: `needle` occurs contiguously inside
`hay` — Python's `needle in hay` on strings (the empty needle always
occurs). -/
def subSeq (needle hay : List Char) : Bool :=
  match hay with
  | [] => takeEq needle []
  | _ :: rest => takeEq needle hay || subSeq needle rest

/-- Python's `needle in hay` for strings. -/
def strHasSub (hay needle : String) : Bool := subSeq needle.data hay.data

/-- The loop body of `remove_book` (src/library_manager.py:66-71): find
the first record whose lowercased title equals the lowercased requested
title, returning it together with the library with that record popped. -/
def removeFirst (title : String) : List Book → Option (Book × List Book)
  | [] => none
  | b :: rest =>
      if pyLower b.title = pyLower title then some (b, rest)
      else
        match removeFirst title rest with
        | some (r, rest') => some (r, b :: rest')
        | none => none

/-- Outcome of `remove_book`: the resulting library, the printed
messages, and whether `save_library` was invoked. -/
structure RemoveResult where
  books : List Book
  log : List Event
  saved : Bool
  deriving DecidableEq, Repr

/-- Translation of `LibraryManager.remove_book` (src/library_manager.py:54-73), with the
requested title (the stripped user input) as a parameter.  On an empty
library it returns before reading a title. -/
def remove_book (books : List Book) (title : String) : RemoveResult :=
  if books.isEmpty then ⟨books, [.emptyLib], false⟩
  else
    match removeFirst title books with
    | some (b, rest) => ⟨rest, [.removed b.title], true⟩
    | none => ⟨books, [.notFound title], false⟩

/-- Outcome of `search_books`: the (unchanged) library, the matching
records, and the printed messages. -/
structure SearchResult where
  books : List Book
  found : List Book
  log : List Event
  deriving DecidableEq, Repr

/-- Translation of `LibraryManager.search_books` (src/library_manager.py:75-95), with the
search term (the stripped user input) as a parameter. -/
def search_books (books : List Book) (term : String) : SearchResult :=
  if books.isEmpty then ⟨books, [], [.emptyLib]⟩
  else
    let t := pyLower term
    let found := books.filter
      (fun b => strHasSub (pyLower b.title) t || strHasSub (pyLower b.author) t)
    if found.isEmpty then ⟨books, found, [.noMatches t]⟩
    else ⟨books, found, [.foundBooks]⟩

/-- When no record's lowercased title equals the lowercased requested
title, the removal loop finds nothing. -/
theorem removeFirst_of_forall_ne (title : String) (l : List Book)
    (h : ∀ x ∈ l, pyLower x.title ≠ pyLower title) : removeFirst title l = none := by
  induction l with
  | nil => rfl
  | cons b rest ih =>
      have hb : pyLower b.title ≠ pyLower title := h b (List.mem_cons_self b rest)
      have hr := ih (fun x hx => h x (List.mem_cons_of_mem b hx))
      simp [removeFirst, hb, hr]

/-- The removal loop pops exactly the first matching record: if everything
before `b` fails the case-insensitive title test and `b` passes it, the
result is `b` together with the library around it. -/
theorem removeFirst_first (title : String) (b : Book) (post : List Book)
    (hb : pyLower b.title = pyLower title) :
    ∀ pre : List Book, (∀ x ∈ pre, pyLower x.title ≠ pyLower title) →
      removeFirst title (pre ++ b :: post) = some (b, pre ++ post) := by
  intro pre
  induction pre with
  | nil => intro _; simp [removeFirst, hb]
  | cons a pre' ih =>
      intro h
      have ha : pyLower a.title ≠ pyLower title := h a (List.mem_cons_self a pre')
      have hr := ih (fun x hx => h x (List.mem_cons_of_mem a hx))
      simp [removeFirst, ha, hr]

/-- C6 counterexample: removing from the empty library (where no record
matches) reports the empty-library message, not not-found. -/
theorem remove_counterexample :
    (remove_book [] "x").log = [Event.emptyLib] ∧
    Event.notFound "x" ∉ (remove_book [] "x").log ∧
    (remove_book [] "x").saved = false := by
  decide

/-- C6 amended: on a nonempty library, `remove` deletes exactly the first
record whose title matches case-insensitively (an exact match of the
lowered strings), leaving every other record untouched; if no record
matches, the library is unchanged, not-found is reported and no save
occurs; on an empty library an empty-library message is reported instead,
with no removal and no save. -/
theorem remove_first_match (books : List Book) (title : String) :
    (∀ pre b post, books = pre ++ b :: post → pyLower b.title = pyLower title →
      (∀ x ∈ pre, pyLower x.title ≠ pyLower title) →
      remove_book books title = ⟨pre ++ post, [.removed b.title], true⟩) ∧
    (books ≠ [] → (∀ x ∈ books, pyLower x.title ≠ pyLower title) →
      remove_book books title = ⟨books, [.notFound title], false⟩) ∧
    (books = [] → remove_book books title = ⟨[], [.emptyLib], false⟩) := by
  refine ⟨?_, ?_, ?_⟩
  · intro pre b post hdecomp hb hpre
    subst hdecomp
    have hE : (pre ++ b :: post).isEmpty = false := by cases pre <;> rfl
    simp [remove_book, hE, removeFirst_first title b post hb pre hpre]
  · intro hne hforall
    have hE : books.isEmpty = false := by
      cases books with
      | nil => exact absurd rfl hne
      | cons _ _ => rfl
    simp [remove_book, hE, removeFirst_of_forall_ne title books hforall]
  · intro h
    subst h
    rfl

/-- Witness for C6 amended: with two case-variant duplicates of the same
title, removal deletes only the first and keeps the second. -/
theorem remove_first_match_witness :
    remove_book [⟨"Dune", "A", 1965, "g", false⟩, ⟨"DUNE", "B", 1970, "g", true⟩] "dune" =
      ⟨[⟨"DUNE", "B", 1970, "g", true⟩], [.removed "Dune"], true⟩ :=
  (remove_first_match [⟨"Dune", "A", 1965, "g", false⟩, ⟨"DUNE", "B", 1970, "g", true⟩]
      "dune").1 [] ⟨"Dune", "A", 1965, "g", false⟩ [⟨"DUNE", "B", 1970, "g", true⟩]
    rfl (by decide) (by simp)

/-- C7: `search` leaves the library unchanged and returns exactly the
records whose title or author contains the term as a case-insensitive
substring, in the library's original order (a filter of the library). -/
theorem search_filter (books : List Book) (term : String) :
    (search_books books term).books = books ∧
    (search_books books term).found = books.filter
      (fun b => strHasSub (pyLower b.title) (pyLower term) ||
        strHasSub (pyLower b.author) (pyLower term)) := by
  cases books with
  | nil => exact ⟨rfl, rfl⟩
  | cons b rest => refine ⟨?_, ?_⟩ <;> simp [search_books, apply_ite]

/-!
Statistics (`display_statistics`).
-/

/-- The values printed by `display_statistics`. -/
structure Stats where
  total : Nat
  readBooks : Nat
  percentageRead : ℚ
  genres : List (String × Nat)

/-- One step of the genre dictionary loop
`genres[genre] = genres.get(genre, 0) + 1`: a Python dict preserves
insertion order, so an existing key is updated in place and a new key is
appended at the end. -/
def bump : List (String × Nat) → String → List (String × Nat)
  | [], g => [(g, 1)]
  | (k, n) :: rest, g => if k = g then (k, n + 1) :: rest else (k, n) :: bump rest g

/-- The genre dictionary built by `display_statistics`'s loop
(src/library_manager.py:124-127). -/
def genreCounts (books : List Book) : List (String × Nat) :=
  books.foldl (fun acc b => bump acc b.genre) []

/-- Translation of `LibraryManager.display_statistics` (src/library_manager.py:106-131):
on an empty library print only the empty message; otherwise compute and
print the totals, the percentage and the per-genre counts. -/
def display_statistics (books : List Book) : Option Stats × List Event :=
  if books.isEmpty then (none, [.emptyLib])
  else
    let total := books.length
    let readBooks : Nat := books.foldl (fun n b => if b.read then n + 1 else n) 0
    let percentageRead : ℚ :=
      if total > 0 then ((readBooks : ℚ) / (total : ℚ)) * 100 else 0
    (some ⟨total, readBooks, percentageRead, genreCounts books⟩, [])

/-- Spec-side description of "in first-seen order": the distinct values of
the list that do not already occur in `seen`, each kept at its first
occurrence. -/
def firstSeenFrom (seen : List String) : List String → List String
  | [] => []
  | g :: rest =>
      if g ∈ seen then firstSeenFrom seen rest
      else g :: firstSeenFrom (seen ++ [g]) rest

/-- The distinct values of a list in first-seen order. -/
def firstSeen (gs : List String) : List String := firstSeenFrom [] gs

/-- Values produced by `firstSeenFrom seen` never lie in `seen`. -/
theorem not_seen_of_mem_firstSeenFrom :
    ∀ (l seen : List String) (x : String), x ∈ firstSeenFrom seen l → x ∉ seen := by
  intro l
  induction l with
  | nil => intro seen x hx; simp [firstSeenFrom] at hx
  | cons g rest ih =>
      intro seen x hx
      by_cases hg : g ∈ seen
      · rw [firstSeenFrom, if_pos hg] at hx
        exact ih seen x hx
      · rw [firstSeenFrom, if_neg hg] at hx
        rcases List.mem_cons.mp hx with h | h
        · subst h; exact hg
        · intro hmem
          exact ih (seen ++ [g]) x h (List.mem_append_left _ hmem)

/-- A key not yet in the dictionary is appended with count 1. -/
theorem bump_of_not_mem :
    ∀ (acc : List (String × Nat)) (g : String), g ∉ acc.map Prod.fst →
      bump acc g = acc ++ [(g, 1)] := by
  intro acc
  induction acc with
  | nil => intro g _; rfl
  | cons p acc' ih =>
      intro g hg
      obtain ⟨k, n⟩ := p
      simp only [List.map_cons, List.mem_cons] at hg
      push_neg at hg
      have hk : k ≠ g := fun h => hg.1 h.symm
      simp [bump, hk, ih g hg.2]

/-- Updating an existing key in place, then adding the counts of the rest
of the genre stream, is the same as adding the counts of the whole
stream. -/
theorem bump_map_count (g : String) (rest : List String) :
    ∀ acc : List (String × Nat), (acc.map Prod.fst).Nodup → g ∈ acc.map Prod.fst →
      (bump acc g).map (fun p => (p.1, p.2 + rest.count p.1)) =
        acc.map (fun p => (p.1, p.2 + (g :: rest).count p.1)) := by
  intro acc
  induction acc with
  | nil => intro _ h; simp at h
  | cons p acc' ih =>
      intro hnodup hmem
      obtain ⟨k, n⟩ := p
      simp only [List.map_cons, List.nodup_cons] at hnodup
      by_cases hk : k = g
      · subst hk
        have htail : ∀ q ∈ acc', q.1 ≠ k := by
          intro q hq h
          exact hnodup.1 (h ▸ List.mem_map_of_mem Prod.fst hq)
        rw [show bump ((k, n) :: acc') k = (k, n + 1) :: acc' from by simp [bump]]
        simp only [List.map_cons]
        congr 1
        · simp only [List.count_cons, Prod.mk.injEq, true_and, beq_self_eq_true, if_pos]
          omega
        · refine List.map_congr_left (fun q hq => ?_)
          have := htail q hq
          simp [List.count_cons, this]
      · have hmem' : g ∈ acc'.map Prod.fst := by
          rcases List.mem_cons.mp hmem with h | h
          · exact absurd h.symm hk
          · exact h
        rw [show bump ((k, n) :: acc') g = (k, n) :: bump acc' g from by simp [bump, hk]]
        simp only [List.map_cons]
        congr 1
        · simp [List.count_cons, hk]
        · exact ih hnodup.2 hmem'

/-- Closed form of the genre loop: folding `bump` over a genre stream
starting from a dictionary with distinct keys updates every existing key
by its number of occurrences and appends the unseen distinct values in
first-seen order, each with its occurrence count. -/
theorem foldl_bump_spec :
    ∀ (gs : List String) (acc : List (String × Nat)), (acc.map Prod.fst).Nodup →
      gs.foldl bump acc =
        acc.map (fun p => (p.1, p.2 + gs.count p.1)) ++
          (firstSeenFrom (acc.map Prod.fst) gs).map (fun g => (g, gs.count g)) := by
  intro gs
  induction gs with
  | nil =>
      intro acc _
      simp [firstSeenFrom]
  | cons g rest ih =>
      intro acc hnodup
      rw [List.foldl_cons]
      by_cases hg : g ∈ acc.map Prod.fst
      · have hkeys : (bump acc g).map Prod.fst = acc.map Prod.fst := by
          clear ih hnodup
          induction acc with
          | nil => simp at hg
          | cons p acc' ih2 =>
              obtain ⟨k, n⟩ := p
              by_cases hk : k = g
              · simp [bump, hk]
              · have : g ∈ acc'.map Prod.fst := by
                  rcases List.mem_cons.mp hg with h | h
                  · exact absurd h.symm hk
                  · exact h
                simp [bump, hk, ih2 this]
        rw [ih (bump acc g) (hkeys ▸ hnodup), hkeys]
        rw [firstSeenFrom, if_pos hg]
        congr 1
        · exact bump_map_count g rest acc hnodup hg
        · refine List.map_congr_left (fun k hk => ?_)
          have hks : k ∉ acc.map Prod.fst := not_seen_of_mem_firstSeenFrom rest _ k hk
          have : k ≠ g := fun h => hks (h ▸ hg)
          simp [List.count_cons, this]
      · rw [bump_of_not_mem acc g hg]
        have hkeys : (acc ++ [(g, 1)]).map Prod.fst = acc.map Prod.fst ++ [g] := by simp
        have hnodup' : ((acc ++ [(g, 1)]).map Prod.fst).Nodup := by
          rw [hkeys]
          simp [List.nodup_append, hnodup, hg]
        rw [ih (acc ++ [(g, 1)]) hnodup', hkeys]
        rw [firstSeenFrom, if_neg hg]
        simp only [List.map_append, List.map_cons, List.append_assoc, List.map_nil]
        congr 1
        · refine List.map_congr_left (fun q hq => ?_)
          have : q.1 ≠ g := by
            intro h
            exact hg (h ▸ List.mem_map_of_mem Prod.fst hq)
          simp [List.count_cons, this]
        · simp only [List.singleton_append, List.cons_append, List.nil_append]
          congr 1
          · simp [List.count_cons]
            omega
          · refine List.map_congr_left (fun k hk => ?_)
            have hks : k ∉ acc.map Prod.fst ++ [g] :=
              not_seen_of_mem_firstSeenFrom rest _ k hk
            have : k ≠ g := by
              intro h
              exact hks (List.mem_append_right _ (h ▸ List.mem_singleton_self g))
            simp [List.count_cons, this]

/-- The genre dictionary holds the library's distinct genres in first-seen
order, each mapped to its number of occurrences. -/
theorem genreCounts_eq (books : List Book) :
    genreCounts books =
      (firstSeen (books.map (fun b => b.genre))).map
        (fun g => (g, (books.map (fun b => b.genre)).count g)) := by
  have h := foldl_bump_spec (books.map (fun b => b.genre)) [] (by simp)
  simp only [List.map_nil, List.nil_append] at h
  rw [genreCounts, ← List.foldl_map, h, firstSeen]

/-- The read-count loop `sum(1 for book in self.books if book["read"])`
counts the records with `read = true`. -/
theorem foldl_read_count (l : List Book) :
    ∀ n : Nat, l.foldl (fun n b => if b.read then n + 1 else n) n =
      n + l.countP (fun b => b.read) := by
  induction l with
  | nil => intro n; simp
  | cons b rest ih =>
      intro n
      by_cases hb : b.read <;> (simp [List.countP_cons, hb, ih]; try omega)

/-- C8 counterexample: on the empty library the statistics operation
reports nothing but the empty-library message — no total, no read count,
no percentage, no genre counts. -/
theorem statistics_counterexample :
    display_statistics [] = (none, [Event.emptyLib]) := rfl

/-- C8 amended: for every nonempty library, statistics reports the total
record count, the count of records with `read = true`, the percentage
read `read/total*100` (computed through a guard that yields 0 when the
total is 0, so no division fault), and the per-distinct-genre counts in
first-seen order; the empty library instead gets only an empty-library
message. -/
theorem statistics_correct (books : List Book) (h : books ≠ []) :
    ∃ s : Stats,
      display_statistics books = (some s, []) ∧
      s.total = books.length ∧
      s.readBooks = books.countP (fun b => b.read) ∧
      s.percentageRead = ((books.countP (fun b => b.read) : ℚ) / (books.length : ℚ)) * 100 ∧
      s.genres =
        (firstSeen (books.map (fun b => b.genre))).map
          (fun g => (g, (books.map (fun b => b.genre)).count g)) := by
  cases books with
  | nil => exact absurd rfl h
  | cons b rest =>
      refine ⟨_, rfl, rfl, ?_, ?_, genreCounts_eq (b :: rest)⟩
      · simp only [foldl_read_count, Nat.zero_add]
      · have hpos : 0 < (b :: rest).length := by simp
        simp only [gt_iff_lt, hpos, if_pos]
        rw [foldl_read_count (b :: rest) 0]
        norm_num

/-- Witness for C8 amended at a concrete 3-record library with 2 records
read and a repeated genre. -/
theorem statistics_correct_witness :
    ([⟨"a", "x", 1900, "A", true⟩, ⟨"b", "y", 1901, "B", true⟩,
        ⟨"c", "z", 1902, "A", false⟩] : List Book) ≠ [] ∧
    (∃ s : Stats,
      display_statistics
          [⟨"a", "x", 1900, "A", true⟩, ⟨"b", "y", 1901, "B", true⟩,
            ⟨"c", "z", 1902, "A", false⟩] = (some s, []) ∧
      s.total = 3 ∧ s.readBooks = 2 ∧ s.percentageRead = (2 : ℚ) / 3 * 100 ∧
      s.genres = [("A", 2), ("B", 1)]) := by
  refine ⟨by decide, ?_⟩
  obtain ⟨s, h1, h2, h3, h4, h5⟩ :=
    statistics_correct
      [⟨"a", "x", 1900, "A", true⟩, ⟨"b", "y", 1901, "B", true⟩,
        ⟨"c", "z", 1902, "A", false⟩] (by decide)
  refine ⟨s, h1, ?_, ?_, ?_, ?_⟩
  · rw [h2]; rfl
  · rw [h3]; rfl
  · rw [h4]; norm_num
  · rw [h5]; rfl

/-!
Year validation (`add_book`, src/library_manager.py:25-32).
-/

/-- Whitespace stripped by Python's `int()` before parsing. -/
def pyIsSpace (c : Char) : Bool :=
  c = ' ' || c = '\t' || c = '\n' || c = '\r' || c = '\x0b' || c = '\x0c'

/-- Strip leading and trailing whitespace. -/
def stripWS (cs : List Char) : List Char :=
  ((cs.dropWhile pyIsSpace).reverse.dropWhile pyIsSpace).reverse

/-- Accumulate a decimal number over a digit run; any non-digit makes the
parse fail. -/
def pyDigitsAux (acc : Nat) : List Char → Option Nat
  | [] => some acc
  | c :: rest => if c.isDigit then pyDigitsAux (acc * 10 + (c.toNat - 48)) rest else none

/-- A nonempty all-digit run parsed as a decimal number. -/
def pyDigits : List Char → Option Nat
  | [] => none
  | cs => pyDigitsAux 0 cs

/-- Python's `int(s)` on decimal text: optional surrounding whitespace, an
optional sign, then a nonempty digit run; anything else raises
`ValueError`, modelled as `none`. -/
def pyInt (s : String) : Option Int :=
  match stripWS s.data with
  | '-' :: rest => (pyDigits rest).map (fun n => -(n : Int))
  | '+' :: rest => (pyDigits rest).map (fun n => (n : Int))
  | cs => (pyDigits cs).map (fun n => (n : Int))

/-- One round of `add_book`'s year loop: `int(input(...))` followed by the
range check `1800 <= year <= 2024`.  `some` means the loop breaks with
this year, `none` that it re-prompts. -/
def validateYear (s : String) : Option Int :=
  match pyInt s with
  | some y => if 1800 ≤ y ∧ y ≤ 2024 then some y else none
  | none => none

/-- The `while True` re-prompt loop of `add_book` over a stream of user
inputs: the first valid year wins, invalid entries re-prompt. -/
def yearLoop : List String → Option Int
  | [] => none
  | s :: rest =>
      match validateYear s with
      | some y => some y
      | none => yearLoop rest

/-- C9: the year loop accepts exactly the integers in [1800, 2024] — the
boundaries 1800 and 2024 are accepted, 1799 and 2025 rejected, a
non-parsing input is rejected, and every rejected input causes a
re-prompt (the loop moves on to the next input). -/
theorem year_validation :
    validateYear "1800" = some 1800 ∧
    validateYear "2024" = some 2024 ∧
    validateYear "1799" = none ∧
    validateYear "2025" = none ∧
    (∀ s y, validateYear s = some y ↔ (pyInt s = some y ∧ 1800 ≤ y ∧ y ≤ 2024)) ∧
    (∀ s, pyInt s = none → validateYear s = none) ∧
    (∀ s rest, validateYear s = none → yearLoop (s :: rest) = yearLoop rest) ∧
    (∀ s y rest, validateYear s = some y → yearLoop (s :: rest) = some y) := by
  refine ⟨by decide, by decide, by decide, by decide, ?_, ?_, ?_, ?_⟩
  · intro s y
    cases hp : pyInt s with
    | none => simp [validateYear, hp]
    | some z =>
        simp only [validateYear, hp]
        by_cases hr : 1800 ≤ z ∧ z ≤ 2024
        · rw [if_pos hr]
          constructor
          · intro h
            injection h with h'
            subst h'
            exact ⟨rfl, hr⟩
          · intro h
            exact h.1
        · rw [if_neg hr]
          constructor
          · intro h
            exact Option.noConfusion h
          · rintro ⟨h1, h2, h3⟩
            injection h1 with h'
            subst h'
            exact absurd ⟨h2, h3⟩ hr
  · intro s hp
    simp [validateYear, hp]
  · intro s rest h
    simp [yearLoop, h]
  · intro s y rest h
    simp [yearLoop, h]

/-- Witness for C9: the boundary year is accepted, and a run of rejected
inputs (1799, 2025, non-numeric) re-prompts until 2024 is accepted. -/
theorem year_validation_witness :
    validateYear "1800" = some 1800 ∧
    yearLoop ["1799", "2025", "abc", "2024"] = some 2024 := by
  obtain ⟨h1800, h2024, h1799, h2025, _, _, hskip, hacc⟩ := year_validation
  refine ⟨h1800, ?_⟩
  calc yearLoop ["1799", "2025", "abc", "2024"]
      = yearLoop ["2025", "abc", "2024"] := hskip _ _ h1799
    _ = yearLoop ["abc", "2024"] := hskip _ _ h2025
    _ = yearLoop ["2024"] := hskip _ _ (by decide)
    _ = some 2024 := hacc _ _ _ h2024
